import Mathlib

/-!
Verification of the milestone-counter application core (app.js, final revision):
the calendar-aware duration decomposition (getTimerValues and applySlider) and
the date-triggered message resolver (getActiveMessage).

A JavaScript Date is modelled as its timestamp: an integer count of
milliseconds since the Unix epoch.  The host device is modelled at a fixed
UTC offset of zero with no daylight-saving transitions, so local midnight of
day n is exactly n * 86400000 ms (86400000 = 1000 * 60 * 60 * 24, one whole
day).  Calendar field access and the normalising field setters of JS Date
(setFullYear, setMonth, which roll invalid day-of-month values forward, e.g.
Feb 31 becomes Mar 3) are modelled with the standard proleptic-Gregorian
civil-from-day-number conversion used by ECMAScript.
-/

namespace MC

/-- Calendar triple: year, month (0-based, as in JS Date), day of month. -/
structure Ymd where
  y : Int
  m : Int
  d : Int
deriving DecidableEq, Repr

/-- Day number (days since 1970-01-01) of a civil date with 0-based month
m in [0, 11]; the day-of-month argument is not required to be in range and
overflows linearly (this mirrors ECMAScript MakeDay).  Standard
days-from-civil conversion for the proleptic Gregorian calendar. -/
def daysFromCivil (y m d : Int) : Int :=
  let y1 := if m ≤ 1 then y - 1 else y
  let era := Int.fdiv y1 400
  let yoe := y1 - era * 400
  let mp := Int.emod (m + 10) 12
  let doy := Int.fdiv (153 * mp + 2) 5 + d - 1
  let doe := yoe * 365 + Int.fdiv yoe 4 - Int.fdiv yoe 100 + doy
  era * 146097 + doe - 719468

/-- ECMAScript MakeDay: month overflow is folded into the year, then the
(possibly out-of-range) day-of-month offsets linearly. -/
def makeDay (y m d : Int) : Int :=
  daysFromCivil (y + Int.fdiv m 12) (Int.emod m 12) d

/-- Timestamp (ms since epoch) of a calendar date at the given ms past
local midnight, with JS Date normalisation of out-of-range fields. -/
def mkDate (y m d ms : Int) : Int :=
  makeDay y m d * 86400000 + ms

/-- Day number containing a timestamp (floor, as JS day arithmetic). -/
def dayOf (t : Int) : Int := Int.fdiv t 86400000

/-- Milliseconds past local midnight of a timestamp. -/
def timeOf (t : Int) : Int := t - dayOf t * 86400000

/-- Inverse of daysFromCivil: civil date (0-based month) of a day number.
Standard civil-from-days conversion. -/
def civilFromDays (z0 : Int) : Ymd :=
  let z := z0 + 719468
  let era := Int.fdiv z 146097
  let doe := z - era * 146097
  let yoe := Int.fdiv (doe - Int.fdiv doe 1460 + Int.fdiv doe 36524 - Int.fdiv doe 146096) 365
  let y := yoe + era * 400
  let doy := doe - (365 * yoe + Int.fdiv yoe 4 - Int.fdiv yoe 100)
  let mp := Int.fdiv (5 * doy + 2) 153
  let d := doy - Int.fdiv (153 * mp + 2) 5 + 1
  let m := if mp < 10 then mp + 2 else mp - 10
  ⟨if m ≤ 1 then y + 1 else y, m, d⟩

/-- JS Date.prototype.getFullYear (local time, fixed zero offset). -/
def getFullYear (t : Int) : Int := (civilFromDays (dayOf t)).y

/-- JS Date.prototype.getMonth (0-based). -/
def getMonth (t : Int) : Int := (civilFromDays (dayOf t)).m

/-- JS Date.prototype.getDate (day of month). -/
def getDate (t : Int) : Int := (civilFromDays (dayOf t)).d

/-- JS Date.prototype.setFullYear: replaces the year, keeping month,
day-of-month and time-of-day fields, then renormalises (so Feb 29 in a
source leap year rolls forward to Mar 1 in a non-leap target year). -/
def setFullYear (y t : Int) : Int :=
  mkDate y (getMonth t) (getDate t) (timeOf t)

/-- JS Date.prototype.setMonth: replaces the month field (any integer,
folded into the year), keeping the day-of-month and time-of-day fields,
then renormalises (so Jan 31 plus one month rolls forward to Mar 2/3). -/
def setMonth (m t : Int) : Int :=
  mkDate (getFullYear t) m (getDate t) (timeOf t)

/-- Timer direction, app.js field timer.mode. -/
inductive Mode where
  | countup
  | countdown
deriving DecidableEq, Repr

/-- A reminder message record.  triggerDate models the JS string field:
none is a missing/empty field (falsy), some none is a present but
unparseable date string, some (some d) parses to the calendar date d. -/
structure MessageSpec where
  text : String
  triggerType : String
  triggerDate : Option (Option Ymd)
deriving DecidableEq, Repr

/-- A timer record; date is the parsed anchor date (form-validated in the
app, hence always parseable). -/
structure Timer where
  date : Ymd
  mode : Mode
  messages : List MessageSpec
deriving DecidableEq, Repr

/-- Result record of getTimerValues. -/
structure Breakdown where
  years : Int
  months : Int
  weeks : Int
  days : Int
  totalDays : Int
  isExpired : Bool
deriving DecidableEq, Repr

/-- Embedding of app.js getTimerValues (part_001 lines 270-304).  The JS
Math.floor of a ms quotient is Int.fdiv; the JS remainder operator on a
(possibly negative) integer is Int.tmod. -/
def getTimerValues (timer : Timer) (now : Int) : Breakdown :=
  let target := mkDate timer.date.y timer.date.m timer.date.d 0
  let fromDate := if timer.mode = Mode.countup then target else now
  let toDate := if timer.mode = Mode.countup then now else target
  if toDate < fromDate then ⟨0, 0, 0, 0, 0, true⟩
  else
    let years0 := getFullYear toDate - getFullYear fromDate
    let afterYears0 := setFullYear (getFullYear fromDate + years0) fromDate
    let years := if toDate < afterYears0 then years0 - 1 else years0
    let afterYears :=
      if toDate < afterYears0 then setFullYear (getFullYear afterYears0 - 1) afterYears0
      else afterYears0
    let months0 := (getFullYear toDate - getFullYear afterYears) * 12
                 + (getMonth toDate - getMonth afterYears)
    let months1 := if getDate toDate < getDate afterYears then months0 - 1 else months0
    let months := if months1 < 0 then 0 else months1
    let afterMonths := setMonth (getMonth afterYears + months) afterYears
    let remainingMs := toDate - afterMonths
    let remainingDays := Int.fdiv remainingMs 86400000
    let weeks := Int.fdiv remainingDays 7
    let days := Int.tmod remainingDays 7
    let totalDays := Int.fdiv (toDate - fromDate) 86400000
    ⟨years, months, weeks, days, totalDays, false⟩

/-- Result record of applySlider. -/
structure Disp where
  dispYears : Int
  dispMonths : Int
  dispWeeks : Int
  dispDays : Int
deriving DecidableEq, Repr

/-- Embedding of app.js applySlider (part_001 lines 538-582).  The JS
function reads the global sliderPosition and, in the months branch, the
active timer from appState and a fresh Date; here these are passed as the
sliderPosition, timer and now parameters. -/
def applySlider (timer : Timer) (now : Int) (vals : Breakdown) (sliderPosition : Int) : Disp :=
  if vals.isExpired then ⟨0, 0, 0, 0⟩
  else if sliderPosition = 0 then
    ⟨vals.years, vals.months, vals.weeks, vals.days⟩
  else if sliderPosition = 1 then
    let target := mkDate timer.date.y timer.date.m timer.date.d 0
    let fromDate := if timer.mode = Mode.countup then target else now
    let toDate := if timer.mode = Mode.countup then now else target
    let totalMonths0 := (getFullYear toDate - getFullYear fromDate) * 12
                      + (getMonth toDate - getMonth fromDate)
    let totalMonths1 := if getDate toDate < getDate fromDate then totalMonths0 - 1 else totalMonths0
    let totalMonths := if totalMonths1 < 0 then 0 else totalMonths1
    let afterMonths := setMonth (getMonth fromDate + totalMonths) fromDate
    let remDays := Int.fdiv (toDate - afterMonths) 86400000
    ⟨0, totalMonths, Int.fdiv remDays 7, Int.tmod remDays 7⟩
  else if sliderPosition = 2 then
    ⟨0, 0, Int.fdiv vals.totalDays 7, Int.tmod vals.totalDays 7⟩
  else
    ⟨0, 0, 0, vals.totalDays⟩

/-- Resolver result: the selected message text and its signed daysUntil.
The triggerLabel of the JS record is a locale-formatted display string
(a rendering concern) and is not modelled. -/
structure ActiveMsg where
  text : String
  daysUntil : Int
deriving DecidableEq, Repr

/-- today.setHours(0,0,0,0): truncate a timestamp to local midnight. -/
def todayOf (now : Int) : Int := dayOf now * 86400000

/-- Loop body of app.js getActiveMessage (part_001 lines 1306-1331),
processing the message list in order with the running best candidate
(none models bestDaysUntil = Infinity, so any candidate wins).  For an
unparseable trigger date the JS daysUntil is NaN and the window test
NaN <= 0 is false, so the message is skipped.  Both trigger day and today
are midnight-aligned, so Math.round of their difference in days is exact
and equals the floor division. -/
def goMsgs (today : Int) : List MessageSpec → Option ActiveMsg → Option ActiveMsg
  | [], best => best
  | msg :: rest, best =>
    if msg.text = "" then goMsgs today rest best
    else
      match msg.triggerType == "date", msg.triggerDate with
      | true, some (some td) =>
        let triggerDay := mkDate td.y td.m td.d 0
        let daysUntil := Int.fdiv (triggerDay - today) 86400000
        let inWindow : Bool := daysUntil ≤ 0
        let better : Bool :=
          match best with
          | none => true
          | some b => daysUntil < b.daysUntil
        if inWindow && better then goMsgs today rest (some ⟨msg.text, daysUntil⟩)
        else goMsgs today rest best
      | true, some none => goMsgs today rest best
      | _, _ => goMsgs today rest best

/-- Embedding of app.js getActiveMessage (part_001 lines 1296-1333). -/
def getActiveMessage (timer : Timer) (now : Int) : Option ActiveMsg :=
  if timer.messages.length = 0 then none
  else goMsgs (todayOf now) timer.messages none

/-- The resolver validity-and-activation guard, read off the loop body:
some daysUntil when the message has non-empty text, triggerType equal to
the string date, a present and parseable triggerDate, and is active
(daysUntil at most 0); none when the loop skips the message. -/
def activeDaysUntil (today : Int) (msg : MessageSpec) : Option Int :=
  if msg.text = "" then none
  else
    match msg.triggerType == "date", msg.triggerDate with
    | true, some (some td) =>
      let du := Int.fdiv (mkDate td.y td.m td.d 0 - today) 86400000
      if du ≤ 0 then some du else none
    | _, _ => none

/-- One loop iteration of the resolver, expressed through the guard. -/
def stepMsg (today : Int) (best : Option ActiveMsg) (msg : MessageSpec) : Option ActiveMsg :=
  match activeDaysUntil today msg with
  | none => best
  | some du =>
    match best with
    | none => some ⟨msg.text, du⟩
    | some b => if du < b.daysUntil then some ⟨msg.text, du⟩ else best

/-- The anchor instant of a timer: its date at local midnight (spec §4.1
step 1, and app.js new Date(timer.date plus T00:00:00)). -/
def targetOf (timer : Timer) : Int :=
  mkDate timer.date.y timer.date.m timer.date.d 0

/-- The from instant of spec §4.1 step 1: the anchor for CountUp, now for
CountDown. -/
def fromInstant (timer : Timer) (now : Int) : Int :=
  if timer.mode = Mode.countup then targetOf timer else now

/-- The to instant of spec §4.1 step 1: now for CountUp, the anchor for
CountDown. -/
def toInstant (timer : Timer) (now : Int) : Int :=
  if timer.mode = Mode.countup then now else targetOf timer

/-- Spec-worded definition (§4.1 pivot = Months): total whole calendar
months between two instants, by calendar year/month difference with the
day-of-month borrow correction, clamped at zero. -/
def specWholeMonths (fromD toD : Int) : Int :=
  let raw := (getFullYear toD - getFullYear fromD) * 12 + (getMonth toD - getMonth fromD)
  let borrowed := if getDate toD < getDate fromD then raw - 1 else raw
  if borrowed < 0 then 0 else borrowed

/-- Spec-worded calendar primitive: advance an instant by n calendar
months (the host-language month addition, i.e. the JS setMonth). -/
def specAddMonths (t n : Int) : Int := setMonth (getMonth t + n) t

/-- Spec-worded primitive: floor of the span between two instants in
whole 24-hour days. -/
def specWholeDays (fromD toD : Int) : Int := Int.fdiv (toD - fromD) 86400000

/-- Spec-worded definition of the pivot = Months recomputation (§4.1
step 4): years forced to 0, months recomputed against the original from
instant, weeks/days derived from the remaining whole days exactly as in
the base decomposition (floor division by 7 and JS remainder). -/
def specMonthsPivot (fromD toD : Int) : Disp :=
  let tm := specWholeMonths fromD toD
  let am := specAddMonths fromD tm
  let rem := specWholeDays am toD
  ⟨0, tm, Int.fdiv rem 7, Int.tmod rem 7⟩

lemma goMsgs_cons (today : Int) (msg : MessageSpec) (rest : List MessageSpec)
    (best : Option ActiveMsg) :
    goMsgs today (msg :: rest) best = goMsgs today rest (stepMsg today best msg) := by
  rcases msg with ⟨text, ttype, tdate⟩
  by_cases ht : text = ""
  · simp [goMsgs, stepMsg, activeDaysUntil, ht]
  · by_cases htt : (ttype == "date") = true
    · rcases tdate with _ | td
      · simp [goMsgs, stepMsg, activeDaysUntil, ht, htt]
      · rcases td with _ | d
        · simp [goMsgs, stepMsg, activeDaysUntil, ht, htt]
        · by_cases hw : Int.fdiv (mkDate d.y d.m d.d 0 - today) 86400000 ≤ 0
          · rcases best with _ | b
            · simp [goMsgs, stepMsg, activeDaysUntil, ht, htt, hw]
            · by_cases hlt : Int.fdiv (mkDate d.y d.m d.d 0 - today) 86400000 < b.daysUntil
              · simp [goMsgs, stepMsg, activeDaysUntil, ht, htt, hw, hlt]
              · simp [goMsgs, stepMsg, activeDaysUntil, ht, htt, hw, hlt]
          · simp [goMsgs, stepMsg, activeDaysUntil, ht, htt, hw]
    · have htt2 : (ttype == "date") = false := by
        simpa using htt
      simp [goMsgs, stepMsg, activeDaysUntil, ht, htt2]

lemma goMsgs_eq_foldl (today : Int) (msgs : List MessageSpec) :
    ∀ best, goMsgs today msgs best = List.foldl (stepMsg today) best msgs := by
  induction msgs with
  | nil => intro best; rfl
  | cons m rest ih =>
    intro best
    rw [goMsgs_cons, List.foldl_cons, ih]

lemma getActiveMessage_eq (timer : Timer) (now : Int) :
    getActiveMessage timer now = goMsgs (todayOf now) timer.messages none := by
  unfold getActiveMessage
  by_cases h : timer.messages.length = 0
  · rw [if_pos h, List.length_eq_zero.mp h]
    rfl
  · rw [if_neg h]

lemma stepMsg_eq_none (today : Int) (best : Option ActiveMsg) (m : MessageSpec) :
    stepMsg today best m = none ↔ best = none ∧ activeDaysUntil today m = none := by
  unfold stepMsg
  cases h : activeDaysUntil today m with
  | none => simp
  | some du =>
    cases best with
    | none => simp
    | some b =>
      by_cases hlt : du < b.daysUntil <;> simp [hlt]

lemma stepMsg_select (today : Int) (m : MessageSpec) (du : Int) (best : Option ActiveMsg)
    (had : activeDaysUntil today m = some du)
    (hb : ∀ b, best = some b → du < b.daysUntil) :
    stepMsg today best m = some ⟨m.text, du⟩ := by
  unfold stepMsg
  rw [had]
  cases best with
  | none => rfl
  | some b => simp [hb b rfl]

lemma foldl_step_stay (today : Int) (b : ActiveMsg) (msgs : List MessageSpec)
    (h : ∀ m ∈ msgs, ∀ du, activeDaysUntil today m = some du → ¬ du < b.daysUntil) :
    List.foldl (stepMsg today) (some b) msgs = some b := by
  induction msgs with
  | nil => rfl
  | cons m rest ih =>
    have hstep : stepMsg today (some b) m = some b := by
      unfold stepMsg
      cases had : activeDaysUntil today m with
      | none => rfl
      | some du => simp [h m (List.mem_cons_self m rest) du had]
    rw [List.foldl_cons, hstep]
    exact ih (fun m2 hm2 => h m2 (List.mem_cons_of_mem m hm2))

lemma foldl_step_none (today : Int) (msgs : List MessageSpec) :
    ∀ best, (List.foldl (stepMsg today) best msgs = none ↔
      (best = none ∧ ∀ m ∈ msgs, activeDaysUntil today m = none)) := by
  induction msgs with
  | nil => intro best; simp
  | cons m rest ih =>
    intro best
    rw [List.foldl_cons, ih, stepMsg_eq_none]
    simp only [List.forall_mem_cons]
    tauto

lemma foldl_step_min (today : Int) (msgs : List MessageSpec) :
    ∀ (best : Option ActiveMsg) (r : ActiveMsg),
      List.foldl (stepMsg today) best msgs = some r →
      ((best = some r ∨ ∃ m ∈ msgs, m.text = r.text ∧ activeDaysUntil today m = some r.daysUntil)
       ∧ (∀ m ∈ msgs, ∀ du, activeDaysUntil today m = some du → r.daysUntil ≤ du)
       ∧ (∀ b, best = some b → r.daysUntil ≤ b.daysUntil)) := by
  induction msgs with
  | nil =>
    intro best r h
    simp only [List.foldl_nil] at h
    refine ⟨Or.inl h, by simp, ?_⟩
    intro b hb
    rw [h] at hb
    cases hb
    exact le_refl _
  | cons m rest ih =>
    intro best r h
    rw [List.foldl_cons] at h
    obtain ⟨ho, hmin, hstart⟩ := ih (stepMsg today best m) r h
    cases had : activeDaysUntil today m with
    | none =>
      have hs : stepMsg today best m = best := by
        unfold stepMsg
        rw [had]
      rw [hs] at ho hstart
      refine ⟨?_, ?_, hstart⟩
      · rcases ho with h0 | ⟨m2, hm2, ht2, ha2⟩
        · exact Or.inl h0
        · exact Or.inr ⟨m2, List.mem_cons_of_mem m hm2, ht2, ha2⟩
      · intro m2 hm2 du hdu
        rcases List.mem_cons.mp hm2 with rfl | hm3
        · rw [had] at hdu
          cases hdu
        · exact hmin m2 hm3 du hdu
    | some du =>
      have hside : ∀ hs2 : stepMsg today best m = some ⟨m.text, du⟩,
          (∀ m2 ∈ m :: rest, ∀ du2, activeDaysUntil today m2 = some du2 → r.daysUntil ≤ du2) := by
        intro hs2
        rw [hs2] at hstart
        have hrdu : r.daysUntil ≤ du := hstart _ rfl
        intro m2 hm2 du2 hdu2
        rcases List.mem_cons.mp hm2 with rfl | hm3
        · rw [had] at hdu2
          cases hdu2
          exact hrdu
        · exact hmin m2 hm3 du2 hdu2
      have hoside : ∀ hs2 : stepMsg today best m = some ⟨m.text, du⟩,
          (best = some r ∨
            ∃ m2 ∈ m :: rest, m2.text = r.text ∧ activeDaysUntil today m2 = some r.daysUntil) := by
        intro hs2
        rw [hs2] at ho
        rcases ho with h0 | ⟨m2, hm2, ht2, ha2⟩
        · have hr : r = ⟨m.text, du⟩ := by
            cases h0
            rfl
          refine Or.inr ⟨m, List.mem_cons_self m rest, ?_, ?_⟩
          · rw [hr]
          · rw [hr, had]
        · exact Or.inr ⟨m2, List.mem_cons_of_mem m hm2, ht2, ha2⟩
      cases best with
      | none =>
        have hs : stepMsg today none m = some ⟨m.text, du⟩ := by
          simp [stepMsg, had]
        exact ⟨hoside hs, hside hs, by simp⟩
      | some b =>
        by_cases hlt : du < b.daysUntil
        · have hs : stepMsg today (some b) m = some ⟨m.text, du⟩ := by
            simp [stepMsg, had, hlt]
          refine ⟨hoside hs, hside hs, ?_⟩
          intro b2 hb2
          cases hb2
          rw [hs] at hstart
          exact le_trans (hstart _ rfl) (le_of_lt hlt)
        · have hs : stepMsg today (some b) m = some b := by
            simp [stepMsg, had, hlt]
          rw [hs] at ho hstart
          have hrdu : r.daysUntil ≤ du := le_trans (hstart b rfl) (not_lt.mp hlt)
          refine ⟨?_, ?_, ?_⟩
          · rcases ho with h0 | ⟨m2, hm2, ht2, ha2⟩
            · exact Or.inl h0
            · exact Or.inr ⟨m2, List.mem_cons_of_mem m hm2, ht2, ha2⟩
          · intro m2 hm2 du2 hdu2
            rcases List.mem_cons.mp hm2 with rfl | hm3
            · rw [had] at hdu2
              cases hdu2
              exact hrdu
            · exact hmin m2 hm3 du2 hdu2
          · intro b2 hb2
            cases hb2
            exact hstart _ rfl

lemma fdiv_mul_add (c t : Int) (h0 : 0 ≤ t) (h1 : t < 86400000) :
    Int.fdiv (c * 86400000 + t) 86400000 = c := by
  rw [Int.fdiv_eq_ediv _ (by norm_num), Int.add_comm,
    Int.add_mul_ediv_right t c (by norm_num),
    Int.ediv_eq_zero_of_lt h0 h1, Int.zero_add]

lemma fdiv_day_small (t : Int) (h0 : 0 ≤ t) (h1 : t < 86400000) :
    Int.fdiv t 86400000 = 0 := by
  rw [Int.fdiv_eq_ediv _ (by norm_num), Int.ediv_eq_zero_of_lt h0 h1]

lemma dayOf_mul_add (c t : Int) (h0 : 0 ≤ t) (h1 : t < 86400000) :
    dayOf (c * 86400000 + t) = c :=
  fdiv_mul_add c t h0 h1

lemma timeOf_mul_add (c t : Int) (h0 : 0 ≤ t) (h1 : t < 86400000) :
    timeOf (c * 86400000 + t) = t := by
  unfold timeOf
  rw [dayOf_mul_add c t h0 h1]
  ring

lemma getFullYear_mul_add (c t : Int) (h0 : 0 ≤ t) (h1 : t < 86400000) :
    getFullYear (c * 86400000 + t) = (civilFromDays c).y := by
  unfold getFullYear
  rw [dayOf_mul_add c t h0 h1]

lemma getMonth_mul_add (c t : Int) (h0 : 0 ≤ t) (h1 : t < 86400000) :
    getMonth (c * 86400000 + t) = (civilFromDays c).m := by
  unfold getMonth
  rw [dayOf_mul_add c t h0 h1]

lemma getDate_mul_add (c t : Int) (h0 : 0 ≤ t) (h1 : t < 86400000) :
    getDate (c * 86400000 + t) = (civilFromDays c).d := by
  unfold getDate
  rw [dayOf_mul_add c t h0 h1]

lemma mkDate_as_sum (y m d ms : Int) :
    mkDate y m d ms = makeDay y m d * 86400000 + ms := rfl

lemma totalDays_nonneg (timer : Timer) (now : Int)
    (h : (getTimerValues timer now).isExpired = false) :
    0 ≤ (getTimerValues timer now).totalDays := by
  rcases timer with ⟨date, mode, msgs⟩
  cases mode
  case countup =>
    simp only [getTimerValues, eq_self_iff_true, if_true] at h ⊢
    by_cases hlt : now < mkDate date.y date.m date.d 0
    · rw [if_pos hlt] at h
      simp at h
    · rw [if_neg hlt] at h ⊢
      dsimp only
      rw [Int.fdiv_eq_ediv _ (by norm_num)]
      exact Int.ediv_nonneg (by omega) (by norm_num)
  case countdown =>
    have hmf : (Mode.countdown = Mode.countup) = False := by simp
    simp only [getTimerValues, hmf, if_false] at h ⊢
    by_cases hlt : mkDate date.y date.m date.d 0 < now
    · rw [if_pos hlt] at h
      simp at h
    · rw [if_neg hlt] at h ⊢
      dsimp only
      rw [Int.fdiv_eq_ediv _ (by norm_num)]
      exact Int.ediv_nonneg (by omega) (by norm_num)

lemma fdiv_mul (c : Int) : Int.fdiv (c * 86400000) 86400000 = c := by
  have h := fdiv_mul_add c 0 (le_refl 0) (by norm_num)
  rw [Int.add_zero] at h
  exact h

lemma dayOf_mul (c : Int) : dayOf (c * 86400000) = c :=
  fdiv_mul c

lemma timeOf_mul (c : Int) : timeOf (c * 86400000) = 0 := by
  unfold timeOf
  rw [dayOf_mul]
  ring

lemma getFullYear_shift (D t : Int) (h0 : 0 ≤ t) (h1 : t < 86400000) :
    getFullYear (D * 86400000 + t) = getFullYear (D * 86400000) := by
  unfold getFullYear
  rw [dayOf_mul_add D t h0 h1, dayOf_mul]

lemma getMonth_shift (D t : Int) (h0 : 0 ≤ t) (h1 : t < 86400000) :
    getMonth (D * 86400000 + t) = getMonth (D * 86400000) := by
  unfold getMonth
  rw [dayOf_mul_add D t h0 h1, dayOf_mul]

lemma getDate_shift (D t : Int) (h0 : 0 ≤ t) (h1 : t < 86400000) :
    getDate (D * 86400000 + t) = getDate (D * 86400000) := by
  unfold getDate
  rw [dayOf_mul_add D t h0 h1, dayOf_mul]

lemma setFullYear_mul (y c : Int) :
    setFullYear y (c * 86400000)
      = makeDay y (getMonth (c * 86400000)) (getDate (c * 86400000)) * 86400000 := by
  unfold setFullYear
  rw [timeOf_mul, mkDate_as_sum, Int.add_zero]

lemma setMonth_mul (m c : Int) :
    setMonth m (c * 86400000)
      = makeDay (getFullYear (c * 86400000)) m (getDate (c * 86400000)) * 86400000 := by
  unfold setMonth
  rw [timeOf_mul, mkDate_as_sum, Int.add_zero]

lemma lt_mul_shift (D A t : Int) (h0 : 0 ≤ t) (h1 : t < 86400000) :
    (D * 86400000 + t < A * 86400000) = (D * 86400000 < A * 86400000) := by
  apply propext
  constructor <;> intro h2 <;> omega

lemma fdiv_shift_sub (D B t : Int) (h0 : 0 ≤ t) (h1 : t < 86400000) :
    Int.fdiv (D * 86400000 + t - B * 86400000) 86400000
      = Int.fdiv (D * 86400000 - B * 86400000) 86400000 := by
  rw [show D * 86400000 + t - B * 86400000 = (D - B) * 86400000 + t from by ring,
    show D * 86400000 - B * 86400000 = (D - B) * 86400000 from by ring,
    fdiv_mul_add _ t h0 h1, fdiv_mul]

lemma getTimerValues_countup_shift (date : Ymd) (msgs : List MessageSpec) (D t : Int)
    (h0 : 0 ≤ t) (h1 : t < 86400000) :
    getTimerValues ⟨date, Mode.countup, msgs⟩ (D * 86400000 + t)
      = getTimerValues ⟨date, Mode.countup, msgs⟩ (D * 86400000) := by
  simp only [getTimerValues, eq_self_iff_true, if_true, mkDate_as_sum, Int.add_zero,
    setFullYear_mul, getFullYear_shift D t h0 h1, getMonth_shift D t h0 h1,
    getDate_shift D t h0 h1, lt_mul_shift, h0, h1]
  split
  · rfl
  · split
    · simp only [setMonth_mul, fdiv_shift_sub, h0, h1]
    · simp only [setMonth_mul, fdiv_shift_sub, h0, h1]

/-- Claim C1, counterexample.  For messages A (trigger 2024-01-01) and
B (trigger 2024-01-10) with today 2024-01-15, the resolver returns A
(daysUntil -14, the most stale trigger), not B (daysUntil -5) as the
claim states: the loop keeps the candidate with the smallest daysUntil
(strict less-than against the running best), not the largest. -/
theorem getActiveMessage_not_most_recent :
    getActiveMessage ⟨⟨2024, 0, 15⟩, Mode.countup,
      [⟨("A"), ("date"), some (some ⟨2024, 0, 1⟩)⟩,
       ⟨("B"), ("date"), some (some ⟨2024, 0, 10⟩)⟩]⟩ (mkDate 2024 0 15 0)
      = some ⟨("A"), -14⟩
    ∧ ("A" : String) ≠ ("B") := by
  constructor
  · decide
  · decide

/-- Claim C1, amended.  Among the messages that pass the resolver guard
and are active (activeDaysUntil returns some value), getActiveMessage
returns the one with the SMALLEST daysUntil, i.e. the most stale / first
triggered message, not the most recently triggered one. -/
theorem getActiveMessage_min_daysUntil (timer : Timer) (now : Int) (r : ActiveMsg)
    (h : getActiveMessage timer now = some r) :
    (∃ m ∈ timer.messages, m.text = r.text
      ∧ activeDaysUntil (todayOf now) m = some r.daysUntil)
    ∧ ∀ m ∈ timer.messages, ∀ du,
        activeDaysUntil (todayOf now) m = some du → r.daysUntil ≤ du := by
  rw [getActiveMessage_eq, goMsgs_eq_foldl] at h
  obtain ⟨ho, hmin, _⟩ := foldl_step_min (todayOf now) timer.messages none r h
  rcases ho with h0 | h0
  · exact absurd h0 (by simp)
  · exact ⟨h0, hmin⟩

/-- Witness for the amended claim C1 at a concrete input. -/
theorem getActiveMessage_min_daysUntil_witness :
    (∃ m ∈ [(⟨("A"), ("date"), some (some (⟨2024, 0, 1⟩ : Ymd))⟩ : MessageSpec)],
        m.text = ("A" : String)
        ∧ activeDaysUntil (todayOf (mkDate 2024 0 15 0)) m = some (-14))
    ∧ ∀ m ∈ [(⟨("A"), ("date"), some (some (⟨2024, 0, 1⟩ : Ymd))⟩ : MessageSpec)],
        ∀ du, activeDaysUntil (todayOf (mkDate 2024 0 15 0)) m = some du → -14 ≤ du :=
  getActiveMessage_min_daysUntil
    ⟨⟨2024, 0, 15⟩, Mode.countup, [⟨("A"), ("date"), some (some ⟨2024, 0, 1⟩)⟩]⟩
    (mkDate 2024 0 15 0) ⟨("A"), -14⟩ (by decide)

/-- Claim C8, counterexample.  A message with non-empty text and a
parseable, already-passed triggerDate (well formed and active in the
claim's sense) is nevertheless skipped when its triggerType differs from
the string date, so the result is none although a well-formed active
message exists: the none-result is not equivalent to the absence of
well-formed active messages in the claim's sense. -/
theorem getActiveMessage_trigger_type_counterexample :
    getActiveMessage ⟨⟨2024, 0, 15⟩, Mode.countup,
      [⟨("X"), ("reminder"), some (some ⟨2024, 0, 1⟩)⟩]⟩ (mkDate 2024 0 15 0) = none
    ∧ ("X" : String) ≠ ""
    ∧ Int.fdiv (mkDate 2024 0 1 0 - todayOf (mkDate 2024 0 15 0)) 86400000 ≤ 0 := by
  refine ⟨by decide, by decide, by decide⟩

/-- Claim C8, amended.  The resolver is a total function (the embedding
returns an Option, never fails), and it returns none exactly when no
message passes the full resolver guard while active: non-empty text,
triggerType equal to the string date, present and parseable triggerDate,
and trigger date on or before today (activeDaysUntil some).  Messages
with empty text or a missing/unparseable triggerDate never pass the
guard, hence are never selected. -/
theorem getActiveMessage_none_iff (timer : Timer) (now : Int) :
    getActiveMessage timer now = none
      ↔ ∀ m ∈ timer.messages, activeDaysUntil (todayOf now) m = none := by
  rw [getActiveMessage_eq, goMsgs_eq_foldl, foldl_step_none]
  simp

/-- Witness for the amended claim C8: with every trigger date in the
future of today, the resolver returns none. -/
theorem getActiveMessage_none_iff_witness :
    getActiveMessage ⟨⟨2024, 0, 15⟩, Mode.countup,
      [⟨("F1"), ("date"), some (some ⟨2024, 5, 1⟩)⟩,
       ⟨("F2"), ("date"), some (some ⟨2024, 11, 25⟩)⟩]⟩ (mkDate 2024 0 15 0) = none :=
  (getActiveMessage_none_iff
    ⟨⟨2024, 0, 15⟩, Mode.countup,
      [⟨("F1"), ("date"), some (some ⟨2024, 5, 1⟩)⟩,
       ⟨("F2"), ("date"), some (some ⟨2024, 11, 25⟩)⟩]⟩ (mkDate 2024 0 15 0)).mpr
    (by decide)

/-- Claim C9, counterexample.  Messages B and C share the identical
most-recent trigger date (equal to today, daysUntil 0), yet the resolver
returns neither: it returns A, whose trigger date is the oldest
(daysUntil -14), because the selection keeps the smallest daysUntil. -/
theorem getActiveMessage_tie_counterexample :
    getActiveMessage ⟨⟨2024, 0, 15⟩, Mode.countup,
      [⟨("A"), ("date"), some (some ⟨2024, 0, 1⟩)⟩,
       ⟨("B"), ("date"), some (some ⟨2024, 0, 15⟩)⟩,
       ⟨("C"), ("date"), some (some ⟨2024, 0, 15⟩)⟩]⟩ (mkDate 2024 0 15 0)
      = some ⟨("A"), -14⟩
    ∧ some (⟨("A"), -14⟩ : ActiveMsg) ≠ some ⟨("B"), 0⟩
    ∧ some (⟨("A"), -14⟩ : ActiveMsg) ≠ some ⟨("C"), 0⟩ := by
  refine ⟨by decide, by decide, by decide⟩

/-- Claim C9, amended.  The tie-break is stable with respect to input
order, but around the smallest daysUntil (oldest trigger date), not the
most recent one: if a guard-passing active message m has daysUntil du,
every guard-passing active message before it has strictly larger
daysUntil, and every one after it has daysUntil at least du, then m is
the selected message.  In particular, among several active messages
sharing the selected (oldest) trigger date, the earliest listed wins. -/
theorem getActiveMessage_first_minimal (date : Ymd) (mode : Mode) (now : Int)
    (l1 l2 : List MessageSpec) (m : MessageSpec) (du : Int)
    (hm : activeDaysUntil (todayOf now) m = some du)
    (h1 : ∀ m2 ∈ l1, ∀ du2, activeDaysUntil (todayOf now) m2 = some du2 → du < du2)
    (h2 : ∀ m2 ∈ l2, ∀ du2, activeDaysUntil (todayOf now) m2 = some du2 → du ≤ du2) :
    getActiveMessage ⟨date, mode, l1 ++ m :: l2⟩ now = some ⟨m.text, du⟩ := by
  rw [getActiveMessage_eq, goMsgs_eq_foldl]
  dsimp only
  rw [List.foldl_append, List.foldl_cons]
  have hsel : stepMsg (todayOf now) (List.foldl (stepMsg (todayOf now)) none l1) m
      = some ⟨m.text, du⟩ := by
    apply stepMsg_select _ _ _ _ hm
    intro b hb
    obtain ⟨ho, _, _⟩ := foldl_step_min (todayOf now) l1 none b hb
    rcases ho with h0 | ⟨m2, hm2, _, ha2⟩
    · exact absurd h0 (by simp)
    · exact h1 m2 hm2 b.daysUntil ha2
  rw [hsel]
  exact foldl_step_stay (todayOf now) ⟨m.text, du⟩ l2
    (fun m2 hm2 du2 ha2 => not_lt.mpr (h2 m2 hm2 du2 ha2))

/-- Witness for the amended claim C9 at a concrete input: two messages
tied at the oldest active trigger date, the first listed wins. -/
theorem getActiveMessage_first_minimal_witness :
    getActiveMessage ⟨⟨2024, 0, 15⟩, Mode.countup,
      [] ++ (⟨("B"), ("date"), some (some ⟨2024, 0, 15⟩)⟩ : MessageSpec) ::
        [⟨("C"), ("date"), some (some ⟨2024, 0, 15⟩)⟩]⟩ (mkDate 2024 0 15 0)
      = some ⟨("B"), 0⟩ :=
  getActiveMessage_first_minimal ⟨2024, 0, 15⟩ Mode.countup (mkDate 2024 0 15 0)
    [] [⟨("C"), ("date"), some (some ⟨2024, 0, 15⟩)⟩]
    ⟨("B"), ("date"), some (some ⟨2024, 0, 15⟩)⟩ 0
    (by decide) (by simp) (by decide)

/-- Claim C10, confirmed.  A message whose triggerType is not the string
date is skipped entirely: deleting it from the list never changes the
resolver result, so it can never be selected, whatever its text and
triggerDate. -/
theorem getActiveMessage_requires_date_trigger (date : Ymd) (mode : Mode) (now : Int)
    (l1 l2 : List MessageSpec) (m : MessageSpec) (h : m.triggerType ≠ "date") :
    getActiveMessage ⟨date, mode, l1 ++ m :: l2⟩ now
      = getActiveMessage ⟨date, mode, l1 ++ l2⟩ now := by
  rw [getActiveMessage_eq, getActiveMessage_eq, goMsgs_eq_foldl, goMsgs_eq_foldl]
  dsimp only
  rw [List.foldl_append, List.foldl_append, List.foldl_cons]
  have hnone : activeDaysUntil (todayOf now) m = none := by
    unfold activeDaysUntil
    have hb : (m.triggerType == "date") = false := beq_eq_false_iff_ne.mpr h
    rcases hmd : m.triggerDate with _ | td
    · rw [hb]
      split <;> rfl
    · rcases td with _ | d <;> · rw [hb]; split <;> rfl
  have hstep : stepMsg (todayOf now) (List.foldl (stepMsg (todayOf now)) none l1) m
      = List.foldl (stepMsg (todayOf now)) none l1 := by
    unfold stepMsg
    rw [hnone]
  rw [hstep]

/-- Witness for claim C10 at a concrete input: a message with valid text
and trigger date but triggerType count is invisible to the resolver. -/
theorem getActiveMessage_requires_date_trigger_witness :
    getActiveMessage ⟨⟨2024, 0, 15⟩, Mode.countup,
      [⟨("A"), ("date"), some (some ⟨2024, 0, 1⟩)⟩] ++
        (⟨("V"), ("count"), some (some ⟨2024, 0, 2⟩)⟩ : MessageSpec) :: []⟩
      (mkDate 2024 0 15 0)
      = getActiveMessage ⟨⟨2024, 0, 15⟩, Mode.countup,
          [⟨("A"), ("date"), some (some ⟨2024, 0, 1⟩)⟩] ++ []⟩ (mkDate 2024 0 15 0) :=
  getActiveMessage_requires_date_trigger ⟨2024, 0, 15⟩ Mode.countup (mkDate 2024 0 15 0)
    [⟨("A"), ("date"), some (some ⟨2024, 0, 1⟩)⟩] []
    ⟨("V"), ("count"), some (some ⟨2024, 0, 2⟩)⟩ (by decide)

/-- Claim C2, violated by the code.  Counting up from 2023-01-31 with now
at 2023-03-01 midnight: the borrow correction yields months = 1, but the
month advance of Jan 31 by one month rolls over to Mar 3 (JS setMonth on
a day-of-month that the target month lacks), overshooting now, so the
remaining whole days are -2 and the breakdown reports weeks = -1 and
days = -2 — negative fields, at pivot Years (base breakdown) as well as
after applySlider at pivot Months. -/
theorem getTimerValues_negative_weeks_days :
    getTimerValues ⟨⟨2023, 0, 31⟩, Mode.countup, []⟩ (mkDate 2023 2 1 0)
      = ⟨0, 1, -1, -2, 29, false⟩
    ∧ applySlider ⟨⟨2023, 0, 31⟩, Mode.countup, []⟩ (mkDate 2023 2 1 0)
        (getTimerValues ⟨⟨2023, 0, 31⟩, Mode.countup, []⟩ (mkDate 2023 2 1 0)) 1
      = ⟨0, 1, -1, -2⟩
    ∧ (getTimerValues ⟨⟨2023, 0, 31⟩, Mode.countup, []⟩ (mkDate 2023 2 1 0)).weeks < 0
    ∧ (getTimerValues ⟨⟨2023, 0, 31⟩, Mode.countup, []⟩ (mkDate 2023 2 1 0)).days < 0 := by
  refine ⟨by decide, by decide, by decide, by decide⟩

/-- Claim C3, counterexample.  Counting up from the leap day 2024-02-29
to 2025-03-01 (midnight) yields years = 1, months = 0, weeks = 0 and
days = 0, not days = 1 as the claim states: the JS year advance of
Feb 29 2024 by one year rolls over to Mar 1 2025 (not Feb 28), which is
exactly the target date, leaving a zero-day remainder. -/
theorem getTimerValues_leap_counterexample :
    getTimerValues ⟨⟨2024, 1, 29⟩, Mode.countup, []⟩ (mkDate 2025 2 1 0)
      = ⟨1, 0, 0, 0, 366, false⟩
    ∧ (getTimerValues ⟨⟨2024, 1, 29⟩, Mode.countup, []⟩ (mkDate 2025 2 1 0)).days ≠ 1 := by
  refine ⟨by decide, by decide⟩

/-- Claim C7, counterexample.  A countdown timer anchored to the current
calendar date is treated as expired whenever now is past local midnight
(here noon): the target instant (today at 00:00) precedes now, so the
code returns the zeroed breakdown with isExpired = true, although the
claim requires not-expired for both directions. -/
theorem getTimerValues_countdown_today_expired :
    getTimerValues ⟨⟨2024, 0, 15⟩, Mode.countdown, []⟩ (mkDate 2024 0 15 43200000)
      = ⟨0, 0, 0, 0, 0, true⟩
    ∧ (getTimerValues ⟨⟨2024, 0, 15⟩, Mode.countdown, []⟩
        (mkDate 2024 0 15 43200000)).isExpired = true := by
  refine ⟨by decide, by decide⟩

/-- Claim C4, confirmed.  With from and to assigned by direction (CountUp:
from = anchor at midnight, to = now; CountDown: from = now, to = anchor at
midnight), the breakdown is expired exactly when to precedes from, and in
that case it is the all-zero breakdown with isExpired true; expiry is
therefore symmetric under swapping the from/to roles between the two
directions. -/
theorem getTimerValues_expiry_iff (timer : Timer) (now : Int) :
    ((getTimerValues timer now).isExpired = true
      ↔ toInstant timer now < fromInstant timer now)
    ∧ (toInstant timer now < fromInstant timer now →
        getTimerValues timer now = ⟨0, 0, 0, 0, 0, true⟩) := by
  rcases timer with ⟨date, mode, msgs⟩
  cases mode
  case countup =>
    simp only [getTimerValues, toInstant, fromInstant, targetOf,
      eq_self_iff_true, if_true]
    by_cases hlt : now < mkDate date.y date.m date.d 0
    · rw [if_pos hlt]
      exact ⟨by simp [hlt], fun _ => rfl⟩
    · rw [if_neg hlt]
      exact ⟨by simp [hlt], fun hc => absurd hc hlt⟩
  case countdown =>
    have hmf : (Mode.countdown = Mode.countup) = False := by simp
    simp only [getTimerValues, toInstant, fromInstant, targetOf, hmf, if_false]
    by_cases hlt : mkDate date.y date.m date.d 0 < now
    · rw [if_pos hlt]
      exact ⟨by simp [hlt], fun _ => rfl⟩
    · rw [if_neg hlt]
      exact ⟨by simp [hlt], fun hc => absurd hc hlt⟩

/-- Witness for claim C4 at a concrete input (a passed countdown). -/
theorem getTimerValues_expiry_iff_witness :
    ((getTimerValues ⟨⟨2024, 0, 15⟩, Mode.countdown, []⟩ (mkDate 2024 0 20 0)).isExpired = true
      ↔ toInstant ⟨⟨2024, 0, 15⟩, Mode.countdown, []⟩ (mkDate 2024 0 20 0)
          < fromInstant ⟨⟨2024, 0, 15⟩, Mode.countdown, []⟩ (mkDate 2024 0 20 0))
    ∧ (toInstant ⟨⟨2024, 0, 15⟩, Mode.countdown, []⟩ (mkDate 2024 0 20 0)
          < fromInstant ⟨⟨2024, 0, 15⟩, Mode.countdown, []⟩ (mkDate 2024 0 20 0) →
        getTimerValues ⟨⟨2024, 0, 15⟩, Mode.countdown, []⟩ (mkDate 2024 0 20 0)
          = ⟨0, 0, 0, 0, 0, true⟩) :=
  getTimerValues_expiry_iff ⟨⟨2024, 0, 15⟩, Mode.countdown, []⟩ (mkDate 2024 0 20 0)

/-- Claim C5, confirmed.  For a non-expired breakdown: totalDays is
non-negative; at pivot Days (3) the display is 0/0/0/totalDays, the
totalDays of the base (pivot-independent) breakdown; at pivot Weeks (2)
the display is 0/0/(totalDays div 7)/(totalDays mod 7) with mathematical
(Euclidean) division and remainder, which agree with the code's floor
division and JS remainder because totalDays is non-negative. -/
theorem applySlider_weeks_days_pivots (timer : Timer) (now : Int)
    (h : (getTimerValues timer now).isExpired = false) :
    0 ≤ (getTimerValues timer now).totalDays
    ∧ applySlider timer now (getTimerValues timer now) 3
      = ⟨0, 0, 0, (getTimerValues timer now).totalDays⟩
    ∧ applySlider timer now (getTimerValues timer now) 2
      = ⟨0, 0, (getTimerValues timer now).totalDays / 7,
          (getTimerValues timer now).totalDays % 7⟩ := by
  have htd := totalDays_nonneg timer now h
  refine ⟨htd, ?_, ?_⟩
  · simp [applySlider, h]
  · simp only [applySlider, h, if_false, Bool.false_eq_true]
    norm_num
    rw [Int.fdiv_eq_ediv _ (by norm_num), Int.tmod_eq_emod htd (by norm_num)]
    exact ⟨rfl, rfl⟩

/-- Witness for claim C5 at a concrete input. -/
theorem applySlider_weeks_days_pivots_witness :
    0 ≤ (getTimerValues ⟨⟨2024, 0, 1⟩, Mode.countup, []⟩ (mkDate 2024 0 15 0)).totalDays
    ∧ applySlider ⟨⟨2024, 0, 1⟩, Mode.countup, []⟩ (mkDate 2024 0 15 0)
        (getTimerValues ⟨⟨2024, 0, 1⟩, Mode.countup, []⟩ (mkDate 2024 0 15 0)) 3
      = ⟨0, 0, 0, (getTimerValues ⟨⟨2024, 0, 1⟩, Mode.countup, []⟩ (mkDate 2024 0 15 0)).totalDays⟩
    ∧ applySlider ⟨⟨2024, 0, 1⟩, Mode.countup, []⟩ (mkDate 2024 0 15 0)
        (getTimerValues ⟨⟨2024, 0, 1⟩, Mode.countup, []⟩ (mkDate 2024 0 15 0)) 2
      = ⟨0, 0, (getTimerValues ⟨⟨2024, 0, 1⟩, Mode.countup, []⟩ (mkDate 2024 0 15 0)).totalDays / 7,
          (getTimerValues ⟨⟨2024, 0, 1⟩, Mode.countup, []⟩ (mkDate 2024 0 15 0)).totalDays % 7⟩ :=
  applySlider_weeks_days_pivots ⟨⟨2024, 0, 1⟩, Mode.countup, []⟩ (mkDate 2024 0 15 0) (by decide)

/-- Claim C6, confirmed.  For a non-expired breakdown, the pivot Months
display equals the spec-worded recomputation: total whole calendar months
between the original from and to instants (year/month difference with the
day-of-month borrow correction, clamped at zero, against the original
from, not the intermediate afterYears date), years reported as 0, and
weeks/days derived from the whole days remaining after advancing from by
that many months, exactly as in the base decomposition. -/
theorem applySlider_months_pivot_spec (timer : Timer) (now : Int)
    (h : (getTimerValues timer now).isExpired = false) :
    applySlider timer now (getTimerValues timer now) 1
      = specMonthsPivot (fromInstant timer now) (toInstant timer now)
    ∧ (specMonthsPivot (fromInstant timer now) (toInstant timer now)).dispYears = 0 := by
  constructor
  · simp only [applySlider, h, if_false, Bool.false_eq_true]
    norm_num
    rcases timer with ⟨date, mode, msgs⟩
    cases mode
    case countup =>
      simp [specMonthsPivot, specWholeMonths, specAddMonths, specWholeDays,
        fromInstant, toInstant, targetOf]
    case countdown =>
      have hmf : (Mode.countdown = Mode.countup) = False := by simp
      simp [specMonthsPivot, specWholeMonths, specAddMonths, specWholeDays,
        fromInstant, toInstant, targetOf, hmf]
  · rfl

/-- Witness for claim C6 at a concrete input. -/
theorem applySlider_months_pivot_spec_witness :
    applySlider ⟨⟨2024, 0, 1⟩, Mode.countup, []⟩ (mkDate 2024 0 15 0)
        (getTimerValues ⟨⟨2024, 0, 1⟩, Mode.countup, []⟩ (mkDate 2024 0 15 0)) 1
      = specMonthsPivot
          (fromInstant ⟨⟨2024, 0, 1⟩, Mode.countup, []⟩ (mkDate 2024 0 15 0))
          (toInstant ⟨⟨2024, 0, 1⟩, Mode.countup, []⟩ (mkDate 2024 0 15 0))
    ∧ (specMonthsPivot
          (fromInstant ⟨⟨2024, 0, 1⟩, Mode.countup, []⟩ (mkDate 2024 0 15 0))
          (toInstant ⟨⟨2024, 0, 1⟩, Mode.countup, []⟩ (mkDate 2024 0 15 0))).dispYears = 0 :=
  applySlider_months_pivot_spec ⟨⟨2024, 0, 1⟩, Mode.countup, []⟩ (mkDate 2024 0 15 0) (by decide)

/-- Claim C3, amended.  Counting up from the leap day 2024-02-29 to any
instant on 2025-03-01 yields years = 1, months = 0, weeks = 0, days = 0
(and 366 total whole days): the JS year advance rolls Feb 29 2024 over to
Mar 1 2025, the exact anniversary under the rollover convention, so the
remainder is zero days, not one day as the claim states. -/
theorem getTimerValues_leap_anniversary (t : Int) (h0 : 0 ≤ t) (h1 : t < 86400000) :
    getTimerValues ⟨⟨2024, 1, 29⟩, Mode.countup, []⟩ (mkDate 2025 2 1 t)
      = ⟨1, 0, 0, 0, 366, false⟩ := by
  have hnow : mkDate 2025 2 1 t = 20148 * 86400000 + t := by
    rw [mkDate_as_sum, show makeDay 2025 2 1 = 20148 from by decide]
  rw [hnow, getTimerValues_countup_shift ⟨2024, 1, 29⟩ [] 20148 t h0 h1]
  decide

/-- Witness for the amended claim C3 at noon of 2025-03-01. -/
theorem getTimerValues_leap_anniversary_witness :
    getTimerValues ⟨⟨2024, 1, 29⟩, Mode.countup, []⟩ (mkDate 2025 2 1 43200000)
      = ⟨1, 0, 0, 0, 366, false⟩ :=
  getTimerValues_leap_anniversary 43200000 (by norm_num) (by norm_num)

/-- Claim C7, amended.  totalDays is non-negative whenever the breakdown
is not expired.  When the anchor date equals the current calendar date
(now is any instant of that civil day): for CountUp the breakdown is not
expired and totalDays is 0 whatever the time of day; for CountDown the
totalDays is 0 as well (via the zeroed expired record when applicable),
but the breakdown is unexpired only when now is exactly midnight — at any
later time of day the target midnight has passed and the code reports it
expired, contrary to the claim's both-directions requirement. -/
theorem getTimerValues_today_anchor (timer : Timer) (now : Int)
    (msgs : List MessageSpec) (y m d t : Int) (h0 : 0 ≤ t) (h1 : t < 86400000) :
    ((getTimerValues timer now).isExpired = false → 0 ≤ (getTimerValues timer now).totalDays)
    ∧ (getTimerValues ⟨⟨y, m, d⟩, Mode.countup, msgs⟩ (mkDate y m d t)).isExpired = false
    ∧ (getTimerValues ⟨⟨y, m, d⟩, Mode.countup, msgs⟩ (mkDate y m d t)).totalDays = 0
    ∧ (getTimerValues ⟨⟨y, m, d⟩, Mode.countdown, msgs⟩ (mkDate y m d t)).totalDays = 0
    ∧ ((getTimerValues ⟨⟨y, m, d⟩, Mode.countdown, msgs⟩ (mkDate y m d t)).isExpired = false
        ↔ t = 0) := by
  have hmf : (Mode.countdown = Mode.countup) = False := by simp
  have hkey : ¬ (mkDate y m d t < mkDate y m d 0) := by
    simp only [mkDate]
    omega
  refine ⟨totalDays_nonneg timer now, ?_, ?_, ?_, ?_⟩
  · simp only [getTimerValues, eq_self_iff_true, if_true]
    rw [if_neg hkey]
  · simp only [getTimerValues, eq_self_iff_true, if_true]
    rw [if_neg hkey]
    dsimp only
    rw [show mkDate y m d t - mkDate y m d 0 = t from by simp only [mkDate]; ring,
      fdiv_day_small t h0 h1]
  · simp only [getTimerValues, hmf, if_false]
    by_cases hc : mkDate y m d 0 < mkDate y m d t
    · rw [if_pos hc]
    · rw [if_neg hc]
      dsimp only
      rw [show mkDate y m d 0 - mkDate y m d t = 0 from by
          simp only [mkDate] at hc ⊢
          omega,
        Int.zero_fdiv]
  · simp only [getTimerValues, hmf, if_false]
    by_cases hc : mkDate y m d 0 < mkDate y m d t
    · rw [if_pos hc]
      constructor
      · intro habs
        exact absurd habs (by simp)
      · intro ht0
        subst ht0
        exact absurd hc (by simp)
    · rw [if_neg hc]
      constructor
      · intro _
        simp only [mkDate] at hc
        omega
      · intro _
        rfl

/-- Witness for the amended claim C7 at a concrete input (anchor equal to
the current date, now at midnight). -/
theorem getTimerValues_today_anchor_witness :
    ((getTimerValues ⟨⟨2024, 0, 1⟩, Mode.countup, []⟩ (mkDate 2024 0 15 0)).isExpired = false →
      0 ≤ (getTimerValues ⟨⟨2024, 0, 1⟩, Mode.countup, []⟩ (mkDate 2024 0 15 0)).totalDays)
    ∧ (getTimerValues ⟨⟨2024, 0, 15⟩, Mode.countup, []⟩ (mkDate 2024 0 15 0)).isExpired = false
    ∧ (getTimerValues ⟨⟨2024, 0, 15⟩, Mode.countup, []⟩ (mkDate 2024 0 15 0)).totalDays = 0
    ∧ (getTimerValues ⟨⟨2024, 0, 15⟩, Mode.countdown, []⟩ (mkDate 2024 0 15 0)).totalDays = 0
    ∧ ((getTimerValues ⟨⟨2024, 0, 15⟩, Mode.countdown, []⟩ (mkDate 2024 0 15 0)).isExpired = false
        ↔ (0 : Int) = 0) :=
  getTimerValues_today_anchor ⟨⟨2024, 0, 1⟩, Mode.countup, []⟩ (mkDate 2024 0 15 0)
    [] 2024 0 15 0 (le_refl 0) (by norm_num)

end MC
